import Mathlib

/-!
Verification of the browser analytics client (storage fallback chain,
session store, attribution store, click resolver, link classification).

The TypeScript sources are shallowly embedded: browser state
(`localStorage`, `sessionStorage`, the cookie jar, the in-process memory
map and the clock `Date.now()`) is an explicit `World` record, and every
operation threads the world.  Exceptions thrown by the environment
(quota, disabled storage) are modelled by boolean failure flags on the
world, matching the try/catch-to-boolean conversion in the sources.
`JSON.parse`/`JSON.stringify` are environment primitives; stored strings
are modelled by `StorageString`: either the serialization of a `Json`
value (`JSON.parse` succeeds and returns that value) or an unparseable
raw string (`JSON.parse` throws).
-/

namespace WebAnalytics

/-- First-match association-list lookup (models `Map.get` /
object-key lookup / `URLSearchParams.get`). -/
def lookupKV {α : Type} : List (String × α) → String → Option α
  | [], _ => none
  | (k, v) :: rest, key => if k = key then some v else lookupKV rest key

/-- Insert-or-replace for an association list (models `Map.set` /
`localStorage.setItem`): replaces in place, else appends. -/
def insertKV {α : Type} : List (String × α) → String → α → List (String × α)
  | [], key, val => [(key, val)]
  | (k, v) :: rest, key, val =>
    if k = key then (k, val) :: rest else (k, v) :: insertKV rest key val

/-- Key removal for an association list (models `Map.delete` /
`localStorage.removeItem`). -/
def eraseKV {α : Type} : List (String × α) → String → List (String × α)
  | [], _ => []
  | (k, v) :: rest, key =>
    if k = key then eraseKV rest key else (k, v) :: eraseKV rest key

/-- JSON values (arrays do not occur in any payload of this client and
are omitted). -/
inductive Json where
  | jnull
  | jbool (b : Bool)
  | jnum (n : Int)
  | jstr (s : String)
  | jobj (fields : List (String × Json))

/-- JavaScript truthiness of a parsed JSON value. -/
def Json.truthy : Json → Bool
  | .jnull => false
  | .jbool b => b
  | .jnum n => n != 0
  | .jstr s => s != ""
  | .jobj _ => true

/-- A string held in a storage medium: either the `JSON.stringify`
serialization of a value (on which `JSON.parse` succeeds) or a raw
string on which `JSON.parse` throws. -/
inductive StorageString where
  | json (v : Json)
  | raw (s : String)

/-- JavaScript truthiness of a stored string: only the empty string is
falsy (a serialized JSON value is never empty). -/
def StorageString.truthy : StorageString → Bool
  | .json _ => true
  | .raw s => s != ""

/-- `StorageOptions` from storage-manager.ts (`expiry` in seconds). -/
structure StorageOptions where
  expiry : Option Int := none
  domain : Option String := none
  secure : Bool := false

/-- The four backing media of `StorageMethod`. -/
inductive StoreId where
  | localStorage
  | sessionStorage
  | cookie
  | memory
deriving DecidableEq, Repr

/-- The browser-side state the storage layer touches: the clock, the
availability/failure behaviour of each medium, and the contents of each
medium.  Cookie entries carry the browser-enforced `expires` attribute
(absolute epoch ms; `none` = session cookie); memory entries carry the
absolute expiry the `MemoryStore` computes. -/
structure World where
  now : Int
  localAvailable : Bool := true
  sessionAvailable : Bool := true
  cookieAvailable : Bool := true
  localSetFails : Bool := false
  sessionSetFails : Bool := false
  cookieSetFails : Bool := false
  localData : List (String × StorageString) := []
  sessionData : List (String × StorageString) := []
  cookieData : List (String × StorageString × Option Int) := []
  memoryData : List (String × StorageString × Int) := []

/-- `LocalStorageStore.get`: `localStorage.getItem` under try/catch. -/
def LocalStorageStore.get (w : World) (key : String) : Option StorageString :=
  if w.localAvailable then lookupKV w.localData key else none

/-- `LocalStorageStore.set`: note the source signature takes no
options — the expiry option is ignored by this store. -/
def LocalStorageStore.set (w : World) (key : String) (value : StorageString) :
    Bool × World :=
  if w.localAvailable && !w.localSetFails then
    (true, { w with localData := insertKV w.localData key value })
  else (false, w)

/-- `LocalStorageStore.remove`. -/
def LocalStorageStore.remove (w : World) (key : String) : Bool × World :=
  if w.localAvailable then
    (true, { w with localData := eraseKV w.localData key })
  else (false, w)

/-- `SessionStorageStore.get`. -/
def SessionStorageStore.get (w : World) (key : String) : Option StorageString :=
  if w.sessionAvailable then lookupKV w.sessionData key else none

/-- `SessionStorageStore.set`: options likewise ignored. -/
def SessionStorageStore.set (w : World) (key : String) (value : StorageString) :
    Bool × World :=
  if w.sessionAvailable && !w.sessionSetFails then
    (true, { w with sessionData := insertKV w.sessionData key value })
  else (false, w)

/-- `SessionStorageStore.remove`. -/
def SessionStorageStore.remove (w : World) (key : String) : Bool × World :=
  if w.sessionAvailable then
    (true, { w with sessionData := eraseKV w.sessionData key })
  else (false, w)

/-- `CookieStore.get`: the browser only serves a cookie while it is not
past its `expires` attribute (the `document.cookie` string-splitting is
modelled as jar lookup). -/
def CookieStore.get (w : World) (key : String) : Option StorageString :=
  if w.cookieAvailable then
    match lookupKV w.cookieData key with
    | some (v, none) => some v
    | some (v, some e) => if w.now ≤ e then some v else none
    | none => none
  else none

/-- `CookieStore.set`: a truthy `expiry` option becomes an absolute
`expires` attribute of now + expiry·1000 ms; otherwise a session
cookie. -/
def CookieStore.set (w : World) (key : String) (value : StorageString)
    (opts : StorageOptions) : Bool × World :=
  if w.cookieAvailable && !w.cookieSetFails then
    let exp : Option Int :=
      match opts.expiry with
      | some e => if e ≠ 0 then some (w.now + e * 1000) else none
      | none => none
    (true, { w with cookieData := insertKV w.cookieData key (value, exp) })
  else (false, w)

/-- `CookieStore.remove`: writes an already-expired cookie, evicting the
entry. -/
def CookieStore.remove (w : World) (key : String) : Bool × World :=
  if w.cookieAvailable then
    (true, { w with cookieData := eraseKV w.cookieData key })
  else (false, w)

/-- `MemoryStore.get`: returns an unexpired entry; otherwise deletes
the key (lazy expiry) and returns null. -/
def MemoryStore.get (w : World) (key : String) : Option StorageString × World :=
  match lookupKV w.memoryData key with
  | some (v, e) =>
    if w.now < e then (some v, w)
    else (none, { w with memoryData := eraseKV w.memoryData key })
  | none => (none, { w with memoryData := eraseKV w.memoryData key })

/-- `MemoryStore.set`: always succeeds; a truthy `expiry` option gives
now + expiry·1000 ms, else the 24-hour default. -/
def MemoryStore.set (w : World) (key : String) (value : StorageString)
    (opts : StorageOptions) : Bool × World :=
  let exp : Int :=
    match opts.expiry with
    | some e => if e ≠ 0 then w.now + e * 1000 else w.now + 24 * 60 * 60 * 1000
    | none => w.now + 24 * 60 * 60 * 1000
  (true, { w with memoryData := insertKV w.memoryData key (value, exp) })

/-- `MemoryStore.remove`: `Map.delete` reports whether the key was
present. -/
def MemoryStore.remove (w : World) (key : String) : Bool × World :=
  ((lookupKV w.memoryData key).isSome,
   { w with memoryData := eraseKV w.memoryData key })

/-- `isAvailable` probe of each store. -/
def storeIsAvailable (w : World) : StoreId → Bool
  | .localStorage => w.localAvailable
  | .sessionStorage => w.sessionAvailable
  | .cookie => w.cookieAvailable
  | .memory => true

/-- Dispatch `get` on a store of the chain. -/
def storeGet (sid : StoreId) (w : World) (key : String) :
    Option StorageString × World :=
  match sid with
  | .localStorage => (LocalStorageStore.get w key, w)
  | .sessionStorage => (SessionStorageStore.get w key, w)
  | .cookie => (CookieStore.get w key, w)
  | .memory => MemoryStore.get w key

/-- Dispatch `set` on a store of the chain. -/
def storeSet (sid : StoreId) (w : World) (key : String) (value : StorageString)
    (opts : StorageOptions) : Bool × World :=
  match sid with
  | .localStorage => LocalStorageStore.set w key value
  | .sessionStorage => SessionStorageStore.set w key value
  | .cookie => CookieStore.set w key value opts
  | .memory => MemoryStore.set w key value opts

/-- Dispatch `remove` on a store of the chain. -/
def storeRemove (sid : StoreId) (w : World) (key : String) : Bool × World :=
  match sid with
  | .localStorage => LocalStorageStore.remove w key
  | .sessionStorage => SessionStorageStore.remove w key
  | .cookie => CookieStore.remove w key
  | .memory => MemoryStore.remove w key

/-- The storage-relevant fields of `TinybirdAnalyticsConfig` (the other
configuration fields do not reach the storage manager). -/
structure TinybirdAnalyticsConfig where
  storage : Option StoreId := none
  storageFallbacks : Option (List StoreId) := none
  enableMemoryFallback : Option Bool := none

/-- The ordered method list built by `createStorageManager`: primary
(default localStorage), then fallbacks (default [sessionStorage,
cookie]), then — unless explicitly disabled — memory appended last. -/
def configMethods (cfg : TinybirdAnalyticsConfig) : List StoreId :=
  let primary := cfg.storage.getD .localStorage
  let fallbacks := cfg.storageFallbacks.getD [.sessionStorage, .cookie]
  let methods := primary :: fallbacks
  if cfg.enableMemoryFallback.getD true then methods ++ [.memory] else methods

/-- The active chain: the method list filtered once by availability. -/
def availableStores (cfg : TinybirdAnalyticsConfig) (w : World) : List StoreId :=
  (configMethods cfg).filter (storeIsAvailable w)

/-- `StorageManager.get`: first truthy value along the chain. -/
def managerGet : List StoreId → World → String → Option StorageString × World
  | [], w, _ => (none, w)
  | sid :: rest, w, key =>
    match storeGet sid w key with
    | (some s, w1) => if s.truthy then (some s, w1) else managerGet rest w1 key
    | (none, w1) => managerGet rest w1 key

/-- `StorageManager.set`: stop at the first store that accepts the
write.  The third component instruments the loop with the list of
stores on which a write was attempted, in order. -/
def managerSet : List StoreId → World → String → StorageString →
    StorageOptions → Bool × World × List StoreId
  | [], w, _, _, _ => (false, w, [])
  | sid :: rest, w, key, value, opts =>
    match storeSet sid w key value opts with
    | (true, w1) => (true, w1, [sid])
    | (false, w1) =>
      match managerSet rest w1 key value opts with
      | (ok, w2, attempted) => (ok, w2, sid :: attempted)

/-- `StorageManager.remove`: best-effort removal on every store; true
if any succeeded. -/
def managerRemove : List StoreId → World → String → Bool × World
  | [], w, _ => (false, w)
  | sid :: rest, w, key =>
    match storeRemove sid w key with
    | (ok, w1) =>
      match managerRemove rest w1 key with
      | (ok2, w2) => (ok || ok2, w2)

/-! ## Session manager (session-manager.ts) -/

/-- `SessionItem` from session-manager.ts.  The source casts the parsed
JSON without validating field types; every record this client writes has
a string `value` and a numeric `expiry`, and ill-typed records are
modelled as unparseable. -/
structure SessionItem where
  value : String
  expiry : Int

/-- The JSON object `JSON.stringify` produces for a `SessionItem`. -/
def sessionItemJson (it : SessionItem) : Json :=
  .jobj [("value", .jstr it.value), ("expiry", .jnum it.expiry)]

/-- Storage key of the session record. -/
def SESSION_STORAGE_KEY : String := "session-id"

/-- `isSessionExpired`: `Date.now() > sessionData.expiry`. -/
def isSessionExpired (now : Int) (sessionData : SessionItem) : Bool :=
  now > sessionData.expiry

/-- `parseSessionData`: `JSON.parse` must succeed and yield a truthy
object with keys `value` and `expiry` (an object is always truthy). -/
def parseSessionData : StorageString → Option SessionItem
  | .json (.jobj fields) =>
    match lookupKV fields "value", lookupKV fields "expiry" with
    | some (.jstr v), some (.jnum e) => some ⟨v, e⟩
    | _, _ => none
  | _ => none

/-- The environment a manager call observes beyond the world: the value
`crypto.randomUUID()` would return, `window.location` (query parameters
and path) and `document.referrer`. -/
structure Env where
  world : World
  newUuid : String := ""
  search : List (String × String) := []
  pathname : String := ""
  referrer : String := ""

/-- `setSessionId`: persists `{value, expiry: now + 30min}` with a
30-minute storage expiry option.  The boolean reports whether the
all-media-failed warning was logged. -/
def setSessionId (stores : List StoreId) (w : World) (sessionId : String) :
    World × Bool :=
  let sessionData : SessionItem := ⟨sessionId, w.now + 30 * 60 * 1000⟩
  let r := managerSet stores w SESSION_STORAGE_KEY
    (.json (sessionItemJson sessionData)) { expiry := some 1800 }
  (r.2.1, !r.1)

/-- `getSessionId`: return the stored value if present, parseable and
unexpired; otherwise generate, persist and return a fresh identifier.
Components: returned id, final world, whether a write happened. -/
def getSessionId (stores : List StoreId) (env : Env) : String × World × Bool :=
  match managerGet stores env.world SESSION_STORAGE_KEY with
  | (some stored, w1) =>
    match parseSessionData stored with
    | some sessionData =>
      if !isSessionExpired w1.now sessionData then
        (sessionData.value, w1, false)
      else
        (env.newUuid, (setSessionId stores w1 env.newUuid).1, true)
    | none =>
      (env.newUuid, (setSessionId stores w1 env.newUuid).1, true)
  | (none, w1) =>
    (env.newUuid, (setSessionId stores w1 env.newUuid).1, true)

/-! ## Attribution manager (attribution-manager.ts) -/

/-- `AttributionData`: all fields optional strings. -/
structure AttributionData where
  utm_source : Option String := none
  utm_medium : Option String := none
  utm_campaign : Option String := none
  utm_term : Option String := none
  utm_content : Option String := none
  landing_page : Option String := none
  referrer : Option String := none

/-- Storage key of the attribution record. -/
def ATTRIBUTION_STORAGE_KEY : String := "attribution-data"

/-- One optional field of the serialized object. -/
def optField (key : String) : Option String → List (String × Json)
  | some v => [(key, .jstr v)]
  | none => []

/-- The JSON object `JSON.stringify` produces for an `AttributionData`
(fields in assignment order: the five UTM keys, then `landing_page`,
then `referrer`; absent fields are not serialized). -/
def AttributionData.toJson (d : AttributionData) : Json :=
  .jobj (optField "utm_source" d.utm_source ++ optField "utm_medium" d.utm_medium
    ++ optField "utm_campaign" d.utm_campaign ++ optField "utm_term" d.utm_term
    ++ optField "utm_content" d.utm_content
    ++ optField "landing_page" d.landing_page ++ optField "referrer" d.referrer)

/-- The five UTM parameter names, in scan order. -/
def utmParams : List String :=
  ["utm_source", "utm_medium", "utm_campaign", "utm_term", "utm_content"]

/-- `urlParams.get(param)` followed by the `if (value)` truthiness
check: only a present, non-empty value is captured. -/
def truthyParam (search : List (String × String)) (param : String) :
    Option String :=
  match lookupKV search param with
  | some v => if v != "" then some v else none
  | none => none

/-- The `utmParams.forEach` capture loop, unrolled over the five-element
literal array. -/
def captureUtmParams (search : List (String × String)) : AttributionData :=
  let d : AttributionData := {}
  let d := match truthyParam search "utm_source" with
    | some v => { d with utm_source := some v } | none => d
  let d := match truthyParam search "utm_medium" with
    | some v => { d with utm_medium := some v } | none => d
  let d := match truthyParam search "utm_campaign" with
    | some v => { d with utm_campaign := some v } | none => d
  let d := match truthyParam search "utm_term" with
    | some v => { d with utm_term := some v } | none => d
  match truthyParam search "utm_content" with
    | some v => { d with utm_content := some v } | none => d

/-- `Object.keys(attributionData).length > 0` at the point where only
UTM fields can have been assigned. -/
def AttributionData.hasAnyUtm (d : AttributionData) : Bool :=
  d.utm_source.isSome || d.utm_medium.isSome || d.utm_campaign.isSome
    || d.utm_term.isSome || d.utm_content.isSome

/-- `getAttributionData`: parsed record (any JSON value — the source
casts without validation) or none; an unparseable entry is removed
(self-healing). -/
def getAttributionData (stores : List StoreId) (w : World) :
    Option Json × World :=
  match managerGet stores w ATTRIBUTION_STORAGE_KEY with
  | (some (.json v), w1) => (some v, w1)
  | (some (.raw _), w1) =>
    (none, (managerRemove stores w1 ATTRIBUTION_STORAGE_KEY).2)
  | (none, w1) => (none, w1)

/-- `setAttributionToStorage`: stringify and store with a 24-hour
expiry option.  The boolean reports whether the all-media-failed
warning was logged. -/
def setAttributionToStorage (stores : List StoreId) (w : World)
    (data : AttributionData) : World × Bool :=
  let r := managerSet stores w ATTRIBUTION_STORAGE_KEY (.json data.toJson)
    { expiry := some (24 * 60 * 60) }
  (r.2.1, !r.1)

/-- The URL-scanning tail of `captureAttributionData`, reached when no
record blocks the capture: store the captured UTM values (plus
unconditional `landing_page` and `referrer`) only when at least one UTM
value was captured. -/
def captureScan (stores : List StoreId) (env : Env) (w1 : World) :
    World × Bool :=
  let captured := captureUtmParams env.search
  if captured.hasAnyUtm then
    let data := { captured with landing_page := some env.pathname,
                                referrer := some env.referrer }
    ((setAttributionToStorage stores w1 data).1, true)
  else (w1, false)

/-- `captureAttributionData`: no-op if a truthy record is present;
otherwise scan the URL.  The boolean reports whether a record was
stored. -/
def captureAttributionData (stores : List StoreId) (env : Env) :
    World × Bool :=
  match getAttributionData stores env.world with
  | (some v, w1) => if v.truthy then (w1, false) else captureScan stores env w1
  | (none, w1) => captureScan stores env w1

/-! ## Character-level string primitives

The JavaScript string methods the click resolver and the link
classifier rely on (`startsWith`, `includes`, `replace` with a literal
pattern, `toLowerCase`, `slice`) are modelled on the character list of
the string, matching their code-unit semantics on the ASCII data this
client handles. -/

/-- Character-list prefix test. -/
def charsStartWith : List Char → List Char → Bool
  | _, [] => true
  | [], _ :: _ => false
  | c :: cs, p :: ps => c == p && charsStartWith cs ps

/-- Character-list substring test. -/
def charsContain : List Char → List Char → Bool
  | [], pat => pat.isEmpty
  | c :: cs, pat => charsStartWith (c :: cs) pat || charsContain cs pat

/-- Remove the first occurrence of `pat` (JS
`replace(pattern, '')` with a literal pattern). -/
def charsRemoveFirst : List Char → List Char → List Char
  | [], _ => []
  | c :: cs, pat =>
    if charsStartWith (c :: cs) pat then (c :: cs).drop pat.length
    else c :: charsRemoveFirst cs pat

/-- JS `String.prototype.startsWith`. -/
def jsStartsWith (s pat : String) : Bool :=
  charsStartWith s.data pat.data

/-- JS `String.prototype.includes`. -/
def jsIncludes (s pat : String) : Bool :=
  charsContain s.data pat.data

/-- JS `String.prototype.toLowerCase` (ASCII data). -/
def jsToLower (s : String) : String :=
  ⟨s.data.map Char.toLower⟩

/-- Drop the first `n` characters (JS `slice(n)`). -/
def jsDrop (s : String) (n : Nat) : String :=
  ⟨s.data.drop n⟩

/-! ## Click resolver (click-tracker.ts) -/

/-- A DOM element as the click resolver sees it: its id and its
`dataset` (camel-cased data-attribute keys, in insertion order). -/
structure DomElem where
  id : String := ""
  dataset : List (String × String) := []

/-- Whether an element carries the tracking marker
(`dataset.track !== undefined`, any value including empty). -/
def hasTrackMarker (e : DomElem) : Bool :=
  (lookupKV e.dataset "track").isSome

/-- Index (in a leaf-to-root ancestor chain, clicked element first) of
the topmost element carrying the tracking marker: the walk up keeps
overwriting the candidate, so the highest marked ancestor wins. -/
def topTrackIdx : List DomElem → Option Nat
  | [] => none
  | e :: rest =>
    match topTrackIdx rest with
    | some i => some (i + 1)
    | none => if hasTrackMarker e then some 0 else none

/-- `key.replace(/^track/, '').toLowerCase()` for a key that starts
with `track` (the only keys it is applied to). -/
def cleanTrackKey (key : String) : String :=
  jsToLower (jsDrop key 5)

/-- Fold one element's `track`-prefixed dataset keys into the
accumulator (later writes overwrite earlier ones). -/
def collectElemData (acc : List (String × String)) (e : DomElem) :
    List (String × String) :=
  e.dataset.foldl
    (fun acc2 kv =>
      if jsStartsWith kv.1 "track" then insertKV acc2 (cleanTrackKey kv.1) kv.2
      else acc2)
    acc

/-- `collectTrackingData`: find the topmost marked ancestor, then fold
all `data-track-*` attributes from it down to the clicked element
(root-to-leaf order), descendants overwriting ancestors. -/
def collectTrackingData (chain : List DomElem) : List (String × String) :=
  match topTrackIdx chain with
  | none => []
  | some t => ((chain.take (t + 1)).reverse).foldl collectElemData []

/-- `key.replace('prop', '').toLowerCase()` for a key that starts with
`prop` (string replace rewrites the first occurrence, which for such a
key is the leading `prop`). -/
def stripPropKey (key : String) : String :=
  jsToLower (jsDrop key 4)

/-- The custom-property overlay of `handleClick`: every accumulator key
prefixed `prop` is layered onto the generated properties (suffix
stripped, lower-cased), overriding same-named entries. -/
def applyCustomProps (trackingData : List (String × String))
    (properties : List (String × String)) : List (String × String) :=
  trackingData.foldl
    (fun acc kv =>
      if jsStartsWith kv.1 "prop" then insertKV acc (stripPropKey kv.1) kv.2
      else acc)
    properties

/-! ## Link classification (click-tracker.ts, event-property-factory.ts) -/

/-- A parsed URL (`new URL(...)`): `protocol` keeps the trailing colon,
`hash` keeps the leading `#` (or is empty). -/
structure URLModel where
  protocol : String := "https:"
  hostname : String := ""
  pathname : String := ""
  searchParams : List (String × String) := []
  hash : String := ""

/-- An anchor element: its raw `href`, the parsed URL of that href, and
its text content. -/
structure Anchor where
  href : String := ""
  url : URLModel := {}
  textContent : String := ""

/-- The fixed social-platform hostname list. -/
def socialPlatforms : List String :=
  ["linkedin.com", "twitter.com", "github.com", "x.com", "instagram.com",
   "facebook.com"]

/-- The fixed media-platform hostname list. -/
def mediaPlatforms : List String :=
  ["substack.com", "medium.com", "podcasts.apple.com", "music.amazon.com",
   "spotify.com", "youtube.com"]

/-- `inferLinkType`: mailto beats social beats media beats web. -/
def inferLinkType (url : URLModel) : String :=
  if url.protocol = "mailto:" then "email"
  else if socialPlatforms.any (fun p => jsIncludes url.hostname p) then "social"
  else if mediaPlatforms.any (fun p => jsIncludes url.hostname p) then "media"
  else "web"

/-- `hostname.replace(/www\./, '')`: remove the first occurrence. -/
def removeFirstWww (s : String) : String :=
  ⟨charsRemoveFirst s.data "www.".data⟩

/-- `.replace(/\.com$/, '')`. -/
def stripComSuffix (s : String) : String :=
  if charsStartWith s.data.reverse ".com".data.reverse then
    ⟨s.data.take (s.data.length - 4)⟩
  else s

/-- `getPlatformFromHostname`. -/
def getPlatformFromHostname (hostname : String) : String :=
  if jsIncludes hostname "podcasts.apple" then "apple-podcasts"
  else if jsIncludes hostname "spotify" then "spotify"
  else if jsIncludes hostname "substack" then "substack"
  else if jsIncludes hostname "music.amazon" then "amazon-music"
  else stripComSuffix (removeFirstWww hostname)

/-- Base `LinkClickProperties`.  `link_params` keeps the mapped
key-value pairs (the re-encoding of the query string is environmental
and not modelled). -/
structure LinkClickProperties where
  link_url : String
  link_text : String
  link_host : String
  link_path : String
  link_params : List (String × String)
  link_hash : String
  link_type : String
  is_external : Bool

/-- `EmailClickProperties`. -/
structure EmailClickProperties extends LinkClickProperties where
  email_address : String
  email_subject : Option String
  email_body : Option String

/-- `SocialClickProperties` (also used by the media generator). -/
structure SocialClickProperties extends LinkClickProperties where
  platform : String

/-- `x || null` on an optional string: an empty string becomes null. -/
def orNull : Option String → Option String
  | some "" => none
  | o => o

/-- `linkClickPropertyGenerator`. -/
def linkClickPropertyGenerator (pageHostname : String) (link : Anchor)
    (linkType : String := "web") : LinkClickProperties :=
  { link_url := link.href
    link_text := link.textContent.trim
    link_host := link.url.hostname
    link_path := link.url.pathname
    link_params := link.url.searchParams
    link_hash := link.url.hash.drop 1
    link_type := linkType
    is_external := link.url.hostname != pageHostname }

/-- The result of a generator from the factory map. -/
inductive GeneratedProps where
  | webProps (p : LinkClickProperties)
  | emailProps (p : EmailClickProperties)
  | socialProps (p : SocialClickProperties)

/-- `EventPropertyFactory.createGenerator` applied to a link: the four
registered generators, with the default generator (base properties
carrying the given link type) for any other type string. -/
def createGenerator (pageHostname : String) (linkType : String)
    (link : Anchor) : GeneratedProps :=
  if linkType = "web" then
    .webProps (linkClickPropertyGenerator pageHostname link "web")
  else if linkType = "email" then
    .emailProps
      { toLinkClickProperties := linkClickPropertyGenerator pageHostname link "email"
        email_address := link.url.pathname
        email_subject := orNull (lookupKV link.url.searchParams "subject")
        email_body := orNull (lookupKV link.url.searchParams "body") }
  else if linkType = "social" then
    .socialProps
      { toLinkClickProperties := linkClickPropertyGenerator pageHostname link "social"
        platform := getPlatformFromHostname link.url.hostname }
  else if linkType = "media" then
    .socialProps
      { toLinkClickProperties := linkClickPropertyGenerator pageHostname link "media"
        platform := getPlatformFromHostname link.url.hostname }
  else
    .webProps (linkClickPropertyGenerator pageHostname link linkType)

/-! ## Proof-helper and witness-input definitions -/

/-- Proof helper: the world fields a `get` pass can never touch. -/
def GetFieldsEq (w w2 : World) : Prop :=
  w2.now = w.now ∧ w2.localAvailable = w.localAvailable ∧
    w2.sessionAvailable = w.sessionAvailable ∧
    w2.cookieAvailable = w.cookieAvailable ∧ w2.localData = w.localData ∧
    w2.sessionData = w.sessionData ∧ w2.cookieData = w.cookieData

/-- Proof helper: the value a fresh memory-store read would produce. -/
def memGetVal (m : List (String × StorageString × Int)) (now : Int)
    (key : String) : Option StorageString :=
  match lookupKV m key with
  | some (v, e) => if now < e then some v else none
  | none => none

/-- The default active chain (default config, everything available). -/
def defaultStores : List StoreId :=
  [.localStorage, .sessionStorage, .cookie, .memory]

/-- A small stored attribution record used as concrete input. -/
def attrRecordJson : Json := .jobj [("utm_source", .jstr "a")]

/-- A world already holding `attrRecordJson` in localStorage. -/
def attrWorld : World :=
  { now := 0,
    localData := [(ATTRIBUTION_STORAGE_KEY, .json attrRecordJson)] }

/-- A world holding an unexpired session record in localStorage. -/
def sessionWorld : World :=
  { now := 0,
    localData := [(SESSION_STORAGE_KEY,
      .json (.jobj [("value", .jstr "abc"), ("expiry", .jnum 100)]))] }

/-- A world holding an expired session record in localStorage. -/
def sessionWorldExpired : World :=
  { now := 200,
    localData := [(SESSION_STORAGE_KEY,
      .json (.jobj [("value", .jstr "abc"), ("expiry", .jnum 100)]))] }

/-- A world holding a corrupt (unparseable) attribution entry. -/
def corruptAttrWorld : World :=
  { now := 0, localData := [(ATTRIBUTION_STORAGE_KEY, .raw "not-json")] }

/-- Proof helper: the value the `track`-attribute fold of one element
leaves at clean key `k`, seeded with `r` (the last matching dataset
entry wins, as in the JS object-assignment loop). -/
def trackScanFrom (ds : List (String × String)) (k : String)
    (r : Option String) : Option String :=
  ds.foldl
    (fun r2 kv =>
      if jsStartsWith kv.1 "track" && (cleanTrackKey kv.1 == k) then some kv.2
      else r2)
    r

/-- The value element `e` contributes at clean key `k` (its last
`track`-prefixed dataset entry cleaning to `k`, if any). -/
def elemTrackValue (e : DomElem) (k : String) : Option String :=
  trackScanFrom e.dataset k none

/-- Proof helper: the chain-level fold of element contributions at
clean key `k`. -/
def chainScanFrom (els : List DomElem) (k : String) (r : Option String) :
    Option String :=
  els.foldl
    (fun r2 e =>
      match elemTrackValue e k with
      | some v => some v
      | none => r2)
    r

/-- Proof helper: the value the custom-property overlay leaves at
stripped key `q`, seeded with `r`. -/
def propScanFrom (td : List (String × String)) (q : String)
    (r : Option String) : Option String :=
  td.foldl
    (fun r2 kv =>
      if jsStartsWith kv.1 "prop" && (stripPropKey kv.1 == q) then some kv.2
      else r2)
    r

/-- A marked ancestor carrying custom property `category=nav` and the
tracking marker itself. -/
def navAncestor : DomElem :=
  { dataset := [("track", ""), ("trackPropCategory", "nav")] }

/-- A descendant anchor carrying custom property `category=cta`. -/
def ctaDescendant : DomElem :=
  { dataset := [("trackPropCategory", "cta")] }

/-- A `mailto:` anchor with subject and body parameters. -/
def mailtoLink : Anchor :=
  { href := "mailto:a@b.com?subject=hi&body=yo",
    url := { protocol := "mailto:", hostname := "", pathname := "a@b.com",
             searchParams := [("subject", "hi"), ("body", "yo")] } }

/-- A YouTube anchor. -/
def ytLink : Anchor :=
  { href := "https://youtube.com/watch?v=1",
    url := { protocol := "https:", hostname := "youtube.com",
             pathname := "/watch", searchParams := [("v", "1")] } }

/-! ## Association-list lemmas -/

theorem lookupKV_insertKV {α : Type} (l : List (String × α)) (key q : String)
    (v : α) :
    lookupKV (insertKV l key v) q = if key = q then some v else lookupKV l q := by
  induction l with
  | nil => by_cases h : key = q <;> simp [insertKV, lookupKV, h]
  | cons kv rest ih =>
    obtain ⟨k, v2⟩ := kv
    by_cases hk : k = key <;> by_cases hq : key = q <;>
      by_cases hkq : k = q <;>
      simp_all [insertKV, lookupKV]

theorem lookupKV_eraseKV_self {α : Type} (l : List (String × α)) (key : String) :
    lookupKV (eraseKV l key) key = none := by
  induction l with
  | nil => simp [eraseKV, lookupKV]
  | cons kv rest ih =>
    obtain ⟨k, v⟩ := kv
    by_cases hk : k = key <;> simp [eraseKV, lookupKV, hk, ih]

theorem eraseKV_of_lookupKV_none {α : Type} (l : List (String × α)) (key : String)
    (h : lookupKV l key = none) : eraseKV l key = l := by
  induction l with
  | nil => rfl
  | cons kv rest ih =>
    obtain ⟨k, v⟩ := kv
    by_cases hk : k = key
    · simp [lookupKV, hk] at h
    · simp only [lookupKV, if_neg hk] at h
      simp [eraseKV, hk, ih h]

/-! ## Basic store lemmas -/

theorem storeSet_false_world (sid : StoreId) (w : World) (key : String)
    (value : StorageString) (opts : StorageOptions)
    (h : (storeSet sid w key value opts).1 = false) :
    (storeSet sid w key value opts).2 = w := by
  cases sid <;>
    simp only [storeSet, LocalStorageStore.set, SessionStorageStore.set,
      CookieStore.set, MemoryStore.set] at h ⊢
  · split_ifs at h ⊢ <;> simp_all
  · split_ifs at h ⊢ <;> simp_all
  · split_ifs at h ⊢ <;> simp_all
  · exact absurd h (by simp)

theorem storeSet_memory_true (w : World) (key : String) (value : StorageString)
    (opts : StorageOptions) : (storeSet .memory w key value opts).1 = true := rfl

theorem storeGet_some_world (sid : StoreId) (w : World) (key : String)
    (s : StorageString) (w1 : World) (h : storeGet sid w key = (some s, w1)) :
    w1 = w := by
  cases sid <;>
    simp only [storeGet, MemoryStore.get, Prod.mk.injEq] at h
  · exact h.2.symm
  · exact h.2.symm
  · exact h.2.symm
  · rcases hl : lookupKV w.memoryData key with _ | ⟨v, e⟩ <;> rw [hl] at h
    · simp at h
    · by_cases he : w.now < e
      · simp only [if_pos he, Prod.mk.injEq] at h
        exact h.2.symm
      · simp [if_neg he] at h

/-! ## Fallback-chain lemmas for `StorageManager.set` -/

theorem managerSet_first_success (pre : List StoreId) (s : StoreId)
    (post : List StoreId) (w : World) (key : String) (value : StorageString)
    (opts : StorageOptions)
    (hfail : ∀ x ∈ pre, (storeSet x w key value opts).1 = false)
    (hok : (storeSet s w key value opts).1 = true) :
    managerSet (pre ++ s :: post) w key value opts =
      (true, (storeSet s w key value opts).2, pre ++ [s]) := by
  induction pre with
  | nil =>
    rcases hs : storeSet s w key value opts with ⟨b, w1⟩
    rw [hs] at hok
    simp only at hok
    subst hok
    simp [managerSet, hs]
  | cons x rest ih =>
    have hx := hfail x (by simp)
    rcases hsx : storeSet x w key value opts with ⟨b, w1⟩
    rw [hsx] at hx
    simp only at hx
    subst hx
    have hw1 : w1 = w := by
      have h2 := storeSet_false_world x w key value opts (by rw [hsx])
      rw [hsx] at h2
      exact h2
    subst hw1
    have hrest := ih (fun y hy => hfail y (by simp [hy]))
    simp only [List.cons_append, managerSet, hsx, List.append_eq, hrest]

theorem managerSet_true_of_memory_mem (stores : List StoreId) (w : World)
    (key : String) (value : StorageString) (opts : StorageOptions)
    (h : StoreId.memory ∈ stores) :
    (managerSet stores w key value opts).1 = true := by
  induction stores generalizing w with
  | nil => simp at h
  | cons sid rest ih =>
    rcases hs : storeSet sid w key value opts with ⟨b, w1⟩
    cases b with
    | false =>
      have hsid : sid ≠ .memory := by
        intro he
        subst he
        have h2 := storeSet_memory_true w key value opts
        rw [hs] at h2
        simp at h2
      have hmem : StoreId.memory ∈ rest := by
        rcases List.mem_cons.mp h with h1 | h1
        · exact absurd h1.symm hsid
        · exact h1
      have h3 := ih w1 hmem
      rcases hr : managerSet rest w1 key value opts with ⟨ok, w2, tr⟩
      rw [hr] at h3
      simp only at h3
      subst h3
      simp [managerSet, hs, hr]
    | true => simp [managerSet, hs]

theorem memory_mem_availableStores (cfg : TinybirdAnalyticsConfig) (w : World)
    (h : cfg.enableMemoryFallback ≠ some false) :
    StoreId.memory ∈ availableStores cfg w := by
  have hd : cfg.enableMemoryFallback.getD true = true := by
    cases hc : cfg.enableMemoryFallback with
    | none => rfl
    | some b =>
      cases b with
      | false => exact absurd hc h
      | true => rfl
  have hmethods : StoreId.memory ∈ configMethods cfg := by
    simp [configMethods, hd]
  exact List.mem_filter.mpr ⟨hmethods, rfl⟩

/-! ## Read-stability of the storage manager

A `get` pass over the chain never writes: it can only lazily drop
expired memory entries.  The following lemmas make that precise and
culminate in `managerGet_stable`: repeating a `get` returns the same
value and leaves the world unchanged. -/

theorem GetFieldsEq.rfl (w : World) : GetFieldsEq w w := by
  simp [GetFieldsEq]

theorem GetFieldsEq.trans {w w2 w3 : World} (h1 : GetFieldsEq w w2)
    (h2 : GetFieldsEq w2 w3) : GetFieldsEq w w3 := by
  obtain ⟨a1, b1, c1, d1, e1, f1, g1⟩ := h1
  obtain ⟨a2, b2, c2, d2, e2, f2, g2⟩ := h2
  exact ⟨a2.trans a1, b2.trans b1, c2.trans c1, d2.trans d1, e2.trans e1,
    f2.trans f1, g2.trans g1⟩

theorem storeGet_fields (sid : StoreId) (w : World) (key : String) :
    GetFieldsEq w (storeGet sid w key).2 := by
  cases sid <;> simp only [storeGet, MemoryStore.get]
  · exact GetFieldsEq.rfl w
  · exact GetFieldsEq.rfl w
  · exact GetFieldsEq.rfl w
  · rcases hl : lookupKV w.memoryData key with _ | ⟨v, e⟩
    · simp [GetFieldsEq]
    · by_cases he : w.now < e <;> simp [he, GetFieldsEq]

theorem managerGet_fields (stores : List StoreId) (w : World) (key : String) :
    GetFieldsEq w (managerGet stores w key).2 := by
  induction stores generalizing w with
  | nil => exact GetFieldsEq.rfl w
  | cons sid rest ih =>
    rcases hs : storeGet sid w key with ⟨v, w1⟩
    have hf1 : GetFieldsEq w w1 := by
      have h2 := storeGet_fields sid w key
      rw [hs] at h2
      exact h2
    cases v with
    | none =>
      simp only [managerGet, hs]
      exact hf1.trans (ih w1)
    | some s =>
      by_cases ht : s.truthy
      · simp only [managerGet, hs, ht, if_true]
        exact hf1
      · simp only [managerGet, hs, ht, if_false]
        exact hf1.trans (ih w1)

theorem storeGet_memGetVal (sid : StoreId) (w : World) (key : String) :
    memGetVal (storeGet sid w key).2.memoryData w.now key
      = memGetVal w.memoryData w.now key := by
  cases sid <;> simp only [storeGet, MemoryStore.get]
  rcases hl : lookupKV w.memoryData key with _ | ⟨v, e⟩
  · simp [memGetVal, hl, lookupKV_eraseKV_self]
  · by_cases he : w.now < e
    · simp [hl, he]
    · simp [hl, he, memGetVal, lookupKV_eraseKV_self]

theorem managerGet_memGetVal (stores : List StoreId) (w : World) (key : String) :
    memGetVal (managerGet stores w key).2.memoryData w.now key
      = memGetVal w.memoryData w.now key := by
  induction stores generalizing w with
  | nil => rfl
  | cons sid rest ih =>
    rcases hs : storeGet sid w key with ⟨v, w1⟩
    have hstep : memGetVal w1.memoryData w.now key
        = memGetVal w.memoryData w.now key := by
      have h2 := storeGet_memGetVal sid w key
      rw [hs] at h2
      exact h2
    have hnow : w1.now = w.now := by
      have h2 := storeGet_fields sid w key
      rw [hs] at h2
      exact h2.1
    cases v with
    | none =>
      simp only [managerGet, hs]
      have h3 := ih w1
      rw [hnow] at h3
      exact h3.trans hstep
    | some s =>
      by_cases ht : s.truthy
      · simp only [managerGet, hs, ht, if_true]
        exact hstep
      · simp only [managerGet, hs, ht, if_false]
        have h3 := ih w1
        rw [hnow] at h3
        exact h3.trans hstep

theorem storeGet_memNone (sid : StoreId) (w : World) (key : String)
    (h : lookupKV w.memoryData key = none) :
    (storeGet sid w key).2.memoryData = w.memoryData := by
  cases sid <;> simp only [storeGet, MemoryStore.get]
  rw [h]
  simp [eraseKV_of_lookupKV_none w.memoryData key h]

theorem managerGet_memNone (stores : List StoreId) (w : World) (key : String)
    (h : lookupKV w.memoryData key = none) :
    (managerGet stores w key).2.memoryData = w.memoryData := by
  induction stores generalizing w with
  | nil => rfl
  | cons sid rest ih =>
    rcases hs : storeGet sid w key with ⟨v, w1⟩
    have hstep : w1.memoryData = w.memoryData := by
      have h2 := storeGet_memNone sid w key h
      rw [hs] at h2
      exact h2
    have h1 : lookupKV w1.memoryData key = none := by rw [hstep]; exact h
    cases v with
    | none =>
      simp only [managerGet, hs]
      exact (ih w1 h1).trans hstep
    | some s =>
      by_cases ht : s.truthy
      · simp only [managerGet, hs, ht, if_true]
        exact hstep
      · simp only [managerGet, hs, ht, if_false]
        exact (ih w1 h1).trans hstep

theorem storeGet_later (sid : StoreId) (rest : List StoreId) (w w1 : World)
    (key : String) (v : Option StorageString)
    (hs : storeGet sid w key = (v, w1)) :
    storeGet sid (managerGet rest w1 key).2 key
      = (v, (managerGet rest w1 key).2) := by
  obtain ⟨hnow, hla, hsa, hca, hld, hsd, hcd⟩ := managerGet_fields rest w1 key
  cases sid
  case localStorage =>
    simp only [storeGet, Prod.mk.injEq] at hs
    obtain ⟨hv, hw⟩ := hs
    subst hw
    subst hv
    simp [storeGet, LocalStorageStore.get, hla, hld]
  case sessionStorage =>
    simp only [storeGet, Prod.mk.injEq] at hs
    obtain ⟨hv, hw⟩ := hs
    subst hw
    subst hv
    simp [storeGet, SessionStorageStore.get, hsa, hsd]
  case cookie =>
    simp only [storeGet, Prod.mk.injEq] at hs
    obtain ⟨hv, hw⟩ := hs
    subst hw
    subst hv
    simp [storeGet, CookieStore.get, hca, hcd, hnow]
  case memory =>
    simp only [storeGet, MemoryStore.get] at hs
    rcases hl : lookupKV w.memoryData key with _ | ⟨x, e⟩ <;> rw [hl] at hs
    · simp only [Prod.mk.injEq] at hs
      obtain ⟨hv, hw⟩ := hs
      subst hw
      subst hv
      have h2 : (managerGet rest
            ({ w with memoryData := eraseKV w.memoryData key } : World)
            key).2.memoryData = eraseKV w.memoryData key :=
        managerGet_memNone rest _ key (lookupKV_eraseKV_self _ _)
      have hlook : lookupKV (managerGet rest
          ({ w with memoryData := eraseKV w.memoryData key } : World)
          key).2.memoryData key = none := by
        rw [h2]
        exact lookupKV_eraseKV_self _ _
      simp only [storeGet, MemoryStore.get, hlook]
      rw [eraseKV_of_lookupKV_none _ key hlook]
    · dsimp only at hs
      by_cases he : w.now < e
      · rw [if_pos he] at hs
        simp only [Prod.mk.injEq] at hs
        obtain ⟨hv, hw⟩ := hs
        subst hw
        subst hv
        have hmv : memGetVal w.memoryData w.now key = some x := by
          simp [memGetVal, hl, he]
        have h2 := managerGet_memGetVal rest w key
        rw [hmv] at h2
        simp only [storeGet, MemoryStore.get]
        rcases hl2 : lookupKV (managerGet rest w key).2.memoryData key
          with _ | ⟨x2, e2⟩
        · simp [memGetVal, hl2] at h2
        · simp only [memGetVal, hl2] at h2
          by_cases he2 : w.now < e2
          · rw [if_pos he2] at h2
            simp only [Option.some.injEq] at h2
            subst h2
            dsimp only
            rw [if_pos (show (managerGet rest w key).2.now < e2 by
              rw [hnow]; exact he2)]
          · simp [if_neg he2] at h2
      · rw [if_neg he] at hs
        simp only [Prod.mk.injEq] at hs
        obtain ⟨hv, hw⟩ := hs
        subst hw
        subst hv
        have h2 : (managerGet rest
            ({ w with memoryData := eraseKV w.memoryData key } : World)
            key).2.memoryData = eraseKV w.memoryData key :=
          managerGet_memNone rest _ key (lookupKV_eraseKV_self _ _)
        have hlook : lookupKV (managerGet rest
            ({ w with memoryData := eraseKV w.memoryData key } : World)
            key).2.memoryData key = none := by
          rw [h2]
          exact lookupKV_eraseKV_self _ _
        simp only [storeGet, MemoryStore.get, hlook]
        rw [eraseKV_of_lookupKV_none _ key hlook]

theorem managerGet_stable (stores : List StoreId) (w : World) (key : String) :
    managerGet stores (managerGet stores w key).2 key
      = managerGet stores w key := by
  induction stores generalizing w with
  | nil => rfl
  | cons sid rest ih =>
    rcases hs : storeGet sid w key with ⟨v, w1⟩
    cases v with
    | some s =>
      have hw1 : w1 = w := storeGet_some_world sid w key s w1 hs
      subst hw1
      by_cases ht : s.truthy
      · have hfull : managerGet (sid :: rest) w1 key = (some s, w1) := by
          simp [managerGet, hs, ht]
        rw [hfull]
        simp [managerGet, hs, ht]
      · have hfull : managerGet (sid :: rest) w1 key
            = managerGet rest w1 key := by
          simp [managerGet, hs, ht]
        rw [hfull]
        have hlater := storeGet_later sid rest w1 w1 key (some s) hs
        simp only [managerGet, hlater, ht, if_false]
        exact ih w1
    | none =>
      have hfull : managerGet (sid :: rest) w key = managerGet rest w1 key := by
        simp [managerGet, hs]
      rw [hfull]
      have hlater := storeGet_later sid rest w w1 key none hs
      simp only [managerGet, hlater]
      exact ih w1

theorem managerGet_found_again (stores : List StoreId) (w w1 : World)
    (key : String) (s : StorageString)
    (h : managerGet stores w key = (some s, w1)) :
    managerGet stores w1 key = (some s, w1) := by
  have h2 := managerGet_stable stores w key
  rw [h] at h2
  exact h2

/-! ## Attribution helper lemmas -/

theorem capture_of_present (stores : List StoreId) (env : Env) (j : Json)
    (w1 : World)
    (h : managerGet stores env.world ATTRIBUTION_STORAGE_KEY
      = (some (.json j), w1))
    (ht : j.truthy = true) :
    captureAttributionData stores env = (w1, false) := by
  simp [captureAttributionData, getAttributionData, h, ht]

theorem captureUtmParams_fields (search : List (String × String)) :
    (captureUtmParams search).utm_source = truthyParam search "utm_source" ∧
    (captureUtmParams search).utm_medium = truthyParam search "utm_medium" ∧
    (captureUtmParams search).utm_campaign = truthyParam search "utm_campaign" ∧
    (captureUtmParams search).utm_term = truthyParam search "utm_term" ∧
    (captureUtmParams search).utm_content = truthyParam search "utm_content" ∧
    (captureUtmParams search).landing_page = none ∧
    (captureUtmParams search).referrer = none := by
  rcases h1 : truthyParam search "utm_source" with _ | v1 <;>
  rcases h2 : truthyParam search "utm_medium" with _ | v2 <;>
  rcases h3 : truthyParam search "utm_campaign" with _ | v3 <;>
  rcases h4 : truthyParam search "utm_term" with _ | v4 <;>
  rcases h5 : truthyParam search "utm_content" with _ | v5 <;>
  simp [captureUtmParams, h1, h2, h3, h4, h5]

/-! ## Claim theorems -/

/-- C3: for every ordered chain of active stores in which stores 1..k-1
refuse a write and store k accepts it, `StorageManager.set` returns
true, the value is written to store k only (the resulting world is
exactly store k's write applied to the initial world), and no store
after position k is attempted (the attempted-store trace is the first k
stores). -/
theorem c3_set_stops_at_first_accepting_store (pre : List StoreId)
    (s : StoreId) (post : List StoreId) (w : World) (key : String)
    (value : StorageString) (opts : StorageOptions)
    (hfail : ∀ x ∈ pre, (storeSet x w key value opts).1 = false)
    (hok : (storeSet s w key value opts).1 = true) :
    managerSet (pre ++ s :: post) w key value opts =
      (true, (storeSet s w key value opts).2, pre ++ [s]) :=
  managerSet_first_success pre s post w key value opts hfail hok

/-- Witness for C3: localStorage refuses (quota failure flag), so the
write lands on sessionStorage and cookie/memory are never attempted. -/
theorem c3_witness :
    managerSet
      ([StoreId.localStorage] ++
        StoreId.sessionStorage :: [StoreId.cookie, StoreId.memory])
      { now := 0, localSetFails := true } "k" (.raw "v") {} =
      (true,
       (storeSet .sessionStorage { now := 0, localSetFails := true } "k"
         (.raw "v") {}).2,
       [StoreId.localStorage] ++ [StoreId.sessionStorage]) :=
  c3_set_stops_at_first_accepting_store [.localStorage] .sessionStorage
    [.cookie, .memory] { now := 0, localSetFails := true } "k" (.raw "v") {}
    (by decide) (by decide)

/-- C10: when the memory fallback is not explicitly disabled,
`StorageManager.set` returns true for every key, value and options (the
memory store is appended to the chain, is always available and its set
always succeeds), so the all-media-failed warning branches in
`setSessionId` and `setAttributionToStorage` are unreachable. -/
theorem c10_memory_fallback_set_always_succeeds
    (cfg : TinybirdAnalyticsConfig) (w : World) (key : String)
    (value : StorageString) (opts : StorageOptions) (sessionId : String)
    (data : AttributionData) (h : cfg.enableMemoryFallback ≠ some false) :
    (managerSet (availableStores cfg w) w key value opts).1 = true ∧
    (setSessionId (availableStores cfg w) w sessionId).2 = false ∧
    (setAttributionToStorage (availableStores cfg w) w data).2 = false := by
  have hmem := memory_mem_availableStores cfg w h
  refine ⟨managerSet_true_of_memory_mem _ _ _ _ _ hmem, ?_, ?_⟩
  · have h2 := managerSet_true_of_memory_mem (availableStores cfg w) w
      SESSION_STORAGE_KEY
      (.json (sessionItemJson ⟨sessionId, w.now + 1800000⟩))
      { expiry := some 1800 } hmem
    simp [setSessionId, h2]
  · have h2 := managerSet_true_of_memory_mem (availableStores cfg w) w
      ATTRIBUTION_STORAGE_KEY (.json data.toJson)
      { expiry := some 86400 } hmem
    simp [setAttributionToStorage, h2]

/-- Witness for C10 at the default configuration and an empty world. -/
theorem c10_witness :
    (managerSet (availableStores {} { now := 0 }) { now := 0 } "k"
      (.raw "v") {}).1 = true ∧
    (setSessionId (availableStores {} { now := 0 }) { now := 0 } "sid").2
      = false ∧
    (setAttributionToStorage (availableStores {} { now := 0 }) { now := 0 }
      {}).2 = false :=
  c10_memory_fallback_set_always_succeeds {} { now := 0 } "k" (.raw "v") {}
    "sid" {} (by decide)

/-- C2: attribution capture is first-touch only.  Whenever the storage
chain already yields a parseable (truthy) attribution record — the
manager never checks any expiry on it — `captureAttributionData` is a
no-op for every URL/environment: no store is written, and the stored
record is still read back unchanged afterwards. -/
theorem c2_first_touch_capture_noop (stores : List StoreId) (env : Env)
    (j : Json) (w1 : World)
    (h : managerGet stores env.world ATTRIBUTION_STORAGE_KEY
      = (some (.json j), w1))
    (ht : j.truthy = true) :
    captureAttributionData stores env = (w1, false) ∧
    managerGet stores w1 ATTRIBUTION_STORAGE_KEY = (some (.json j), w1) :=
  ⟨capture_of_present stores env j w1 h ht,
   managerGet_found_again stores env.world w1 ATTRIBUTION_STORAGE_KEY _ h⟩

/-- Witness for C2: a stored record captured from `utm_source=a`
survives a second capture whose URL carries a different
`utm_source=b`. -/
theorem c2_witness :
    captureAttributionData defaultStores
      { world := attrWorld, search := [("utm_source", "b")] }
      = (attrWorld, false) ∧
    managerGet defaultStores attrWorld ATTRIBUTION_STORAGE_KEY
      = (some (.json attrRecordJson), attrWorld) :=
  c2_first_touch_capture_noop defaultStores
    { world := attrWorld, search := [("utm_source", "b")] }
    attrRecordJson attrWorld rfl rfl

/-- C6: when no session record is stored, or the stored record's expiry
is earlier than the current time, `getSessionId` does not return the
stored value: it returns the freshly generated identifier and persists
it as a record carrying expiry now + 30 minutes (with a 30-minute
storage expiry option). -/
theorem c6_expired_session_regenerated (stores : List StoreId) (env : Env)
    (w1 : World)
    (h : managerGet stores env.world SESSION_STORAGE_KEY = (none, w1) ∨
      ∃ s item, managerGet stores env.world SESSION_STORAGE_KEY
          = (some s, w1) ∧
        parseSessionData s = some item ∧ env.world.now > item.expiry) :
    getSessionId stores env =
      (env.newUuid,
       (managerSet stores w1 SESSION_STORAGE_KEY
         (.json (sessionItemJson ⟨env.newUuid, w1.now + 30 * 60 * 1000⟩))
         { expiry := some 1800 }).2.1,
       true) := by
  rcases h with hnone | ⟨s, item, hget, hparse, hexp⟩
  · simp [getSessionId, hnone, setSessionId]
  · have hnow : w1.now = env.world.now := by
      have h2 := managerGet_fields stores env.world SESSION_STORAGE_KEY
      rw [hget] at h2
      exact h2.1
    have hexp2 : isSessionExpired w1.now item = true := by
      simp only [isSessionExpired, hnow, decide_eq_true_eq]
      exact hexp
    simp [getSessionId, hget, hparse, hexp2, setSessionId]

/-- Witness for C6 on the expired branch: a record with expiry 100 read
at time 200 is regenerated. -/
theorem c6_witness :
    getSessionId defaultStores
      { world := sessionWorldExpired, newUuid := "fresh" } =
      ("fresh",
       (managerSet defaultStores sessionWorldExpired SESSION_STORAGE_KEY
         (.json (sessionItemJson ⟨"fresh", sessionWorldExpired.now
           + 30 * 60 * 1000⟩))
         { expiry := some 1800 }).2.1,
       true) :=
  c6_expired_session_regenerated defaultStores
    { world := sessionWorldExpired, newUuid := "fresh" } sessionWorldExpired
    (Or.inr ⟨_, ⟨"abc", 100⟩, rfl, rfl, by decide⟩)

/-- C7: session reads are non-sliding.  For every stored, parseable
session record whose expiry is in the future, `getSessionId` returns
the stored value, performs no write, and leaves the world unchanged —
and a second consecutive call behaves identically. -/
theorem c7_session_read_non_sliding (stores : List StoreId) (env : Env)
    (s : StorageString) (w1 : World) (item : SessionItem)
    (hget : managerGet stores env.world SESSION_STORAGE_KEY = (some s, w1))
    (hparse : parseSessionData s = some item)
    (hfresh : env.world.now < item.expiry) :
    getSessionId stores env = (item.value, w1, false) ∧
    getSessionId stores { env with world := w1 }
      = (item.value, w1, false) := by
  have hnow : w1.now = env.world.now := by
    have h2 := managerGet_fields stores env.world SESSION_STORAGE_KEY
    rw [hget] at h2
    exact h2.1
  have hexp : isSessionExpired w1.now item = false := by
    simp only [isSessionExpired, hnow, decide_eq_false_iff_not]
    omega
  constructor
  · simp [getSessionId, hget, hparse, hexp]
  · have hget2 := managerGet_found_again stores env.world w1
      SESSION_STORAGE_KEY s hget
    simp [getSessionId, hget2, hparse, hexp]

/-- Witness for C7: a record with expiry 100 read twice at time 0. -/
theorem c7_witness :
    getSessionId defaultStores
      { world := sessionWorld, newUuid := "fresh" }
      = ("abc", sessionWorld, false) ∧
    getSessionId defaultStores
      { world := sessionWorld, newUuid := "fresh", search := [],
        pathname := "", referrer := "" }
      = ("abc", sessionWorld, false) := by
  have h := c7_session_read_non_sliding defaultStores
    { world := sessionWorld, newUuid := "fresh" }
    (.json (.jobj [("value", .jstr "abc"), ("expiry", .jnum 100)]))
    sessionWorld ⟨"abc", 100⟩ rfl rfl (by decide)
  exact ⟨h.1, h.2⟩

/-- C8: for every URL whose query string contains none of the five UTM
parameters, `captureAttributionData` stores nothing at all: the
stored-flag is false and the world is exactly the world after the
read-only presence check (`landing_page`/`referrer` are never stored
alone). -/
theorem c8_no_utm_no_capture (stores : List StoreId) (env : Env)
    (h : ∀ p ∈ utmParams, lookupKV env.search p = none) :
    captureAttributionData stores env
      = ((getAttributionData stores env.world).2, false) := by
  have hs1 : truthyParam env.search "utm_source" = none := by
    simp [truthyParam, h "utm_source" (by simp [utmParams])]
  have hs2 : truthyParam env.search "utm_medium" = none := by
    simp [truthyParam, h "utm_medium" (by simp [utmParams])]
  have hs3 : truthyParam env.search "utm_campaign" = none := by
    simp [truthyParam, h "utm_campaign" (by simp [utmParams])]
  have hs4 : truthyParam env.search "utm_term" = none := by
    simp [truthyParam, h "utm_term" (by simp [utmParams])]
  have hs5 : truthyParam env.search "utm_content" = none := by
    simp [truthyParam, h "utm_content" (by simp [utmParams])]
  have hcap : captureUtmParams env.search = {} := by
    simp [captureUtmParams, hs1, hs2, hs3, hs4, hs5]
  have hscan : ∀ w2, captureScan stores env w2 = (w2, false) := by
    intro w2
    simp [captureScan, hcap, AttributionData.hasAnyUtm]
  rcases hg : getAttributionData stores env.world with ⟨og, w1⟩
  cases og with
  | some v =>
    by_cases hv : v.truthy <;>
      simp [captureAttributionData, hg, hv, hscan]
  | none => simp [captureAttributionData, hg, hscan]

/-- Witness for C8: a URL with an unrelated query parameter stores
nothing. -/
theorem c8_witness :
    captureAttributionData defaultStores
      { world := { now := 0 }, search := [("foo", "bar")],
        pathname := "/p", referrer := "r" }
      = ((getAttributionData defaultStores { now := 0 }).2, false) :=
  c8_no_utm_no_capture defaultStores
    { world := { now := 0 }, search := [("foo", "bar")],
      pathname := "/p", referrer := "r" }
    (by decide)

/-- Counterexample to C1 as stated: in the default storage
configuration the record lands in localStorage, whose `set` ignores the
expiry option, so a record captured at time 0 (flag true: a capture did
happen) is still returned — not treated as absent — when read more than
24 hours later (at 86400001 ms). -/
theorem c1_counterexample :
    (captureAttributionData defaultStores
      { world := { now := 0 }, search := [("utm_source", "google")],
        pathname := "/", referrer := "" }).2 = true ∧
    (getAttributionData defaultStores
      { (captureAttributionData defaultStores
          { world := { now := 0 }, search := [("utm_source", "google")],
            pathname := "/", referrer := "" }).1
        with now := 86400001 }).1.isSome = true :=
  ⟨rfl, rfl⟩

/-- C1 amended: every attribution record is stored with a requested
24-hour expiry option (86400 s), and in a configuration whose accepting
store enforces that option — the memory store — a record captured at
time `w.now` is treated as absent when read at any time more than 24
hours later.  (The localStorage/sessionStorage stores ignore the expiry
option, so there the record persists; see the counterexample.) -/
theorem c1_amended_memory_store_expiry (w : World) (env : Env) (u : String)
    (t : Int) (hw : env.world = w)
    (hmem : lookupKV w.memoryData ATTRIBUTION_STORAGE_KEY = none)
    (hu : truthyParam env.search "utm_source" = some u)
    (ht : t > w.now + 24 * 60 * 60 * 1000) :
    (captureAttributionData [StoreId.memory] env).2 = true ∧
    (getAttributionData [StoreId.memory]
      { (captureAttributionData [StoreId.memory] env).1 with now := t }).1
      = none := by
  subst hw
  have hany : (captureUtmParams env.search).hasAnyUtm = true := by
    simp [AttributionData.hasAnyUtm, (captureUtmParams_fields env.search).1, hu]
  have hget : getAttributionData [StoreId.memory] env.world
      = (none, { env.world with
          memoryData := eraseKV env.world.memoryData ATTRIBUTION_STORAGE_KEY }) := by
    simp [getAttributionData, managerGet, storeGet, MemoryStore.get, hmem]
  have hcap : captureAttributionData [StoreId.memory] env
      = ((managerSet [StoreId.memory]
          { env.world with
            memoryData := eraseKV env.world.memoryData ATTRIBUTION_STORAGE_KEY }
          ATTRIBUTION_STORAGE_KEY
          (.json ({ captureUtmParams env.search with
            landing_page := some env.pathname,
            referrer := some env.referrer : AttributionData }).toJson)
          { expiry := some 86400 }).2.1, true) := by
    simp [captureAttributionData, hget, captureScan, hany,
      setAttributionToStorage]
  have hW2 : (captureAttributionData [StoreId.memory] env).1
      = { env.world with
          memoryData := insertKV
            (eraseKV env.world.memoryData ATTRIBUTION_STORAGE_KEY)
            ATTRIBUTION_STORAGE_KEY
            (.json ({ captureUtmParams env.search with
              landing_page := some env.pathname,
              referrer := some env.referrer : AttributionData }).toJson,
             env.world.now + 86400000) } := by
    rw [hcap]
    simp [managerSet, storeSet, MemoryStore.set]
  have hlook : lookupKV
      (insertKV (eraseKV env.world.memoryData ATTRIBUTION_STORAGE_KEY)
        ATTRIBUTION_STORAGE_KEY
        (.json ({ captureUtmParams env.search with
          landing_page := some env.pathname,
          referrer := some env.referrer : AttributionData }).toJson,
         env.world.now + 86400000))
      ATTRIBUTION_STORAGE_KEY
      = some (.json ({ captureUtmParams env.search with
          landing_page := some env.pathname,
          referrer := some env.referrer : AttributionData }).toJson,
         env.world.now + 86400000) := by
    rw [lookupKV_insertKV]
    simp
  have ht2 : ¬ (t < env.world.now + 86400000) := by
    norm_num at ht
    omega
  refine ⟨by rw [hcap], ?_⟩
  rw [hW2]
  simp [getAttributionData, managerGet, storeGet, MemoryStore.get, hlook, ht2]

/-- Witness for the amended C1: capture at time 0 into the memory
store, read back at 86400001 ms: absent. -/
theorem c1_amended_witness :
    (captureAttributionData [StoreId.memory]
      { world := { now := 0 }, search := [("utm_source", "g")],
        pathname := "/", referrer := "" }).2 = true ∧
    (getAttributionData [StoreId.memory]
      { (captureAttributionData [StoreId.memory]
          { world := { now := 0 }, search := [("utm_source", "g")],
            pathname := "/", referrer := "" }).1
        with now := 86400001 }).1 = none :=
  c1_amended_memory_store_expiry { now := 0 }
    { world := { now := 0 }, search := [("utm_source", "g")],
      pathname := "/", referrer := "" }
    "g" 86400001 rfl rfl rfl (by decide)

/-- C9: a corrupt (unparseable) stored attribution record does not
block recapture: the presence guard goes through `getAttributionData`,
which removes the corrupt entry and returns none, and capture proceeds
to scan the URL and (here, with a truthy `utm_source`) stores a new
record — unlike a parseable (even arbitrarily old) record, which
blocks recapture. -/
theorem c9_corrupt_entry_self_heals (stores : List StoreId) (env : Env)
    (s : String) (w1 : World) (u : String)
    (hget : managerGet stores env.world ATTRIBUTION_STORAGE_KEY
      = (some (.raw s), w1))
    (hu : truthyParam env.search "utm_source" = some u) :
    getAttributionData stores env.world
      = (none, (managerRemove stores w1 ATTRIBUTION_STORAGE_KEY).2) ∧
    captureAttributionData stores env
      = ((setAttributionToStorage stores
          (managerRemove stores w1 ATTRIBUTION_STORAGE_KEY).2
          { captureUtmParams env.search with
            landing_page := some env.pathname,
            referrer := some env.referrer }).1, true) ∧
    (∀ (env2 : Env) (j : Json) (w2 : World),
      managerGet stores env2.world ATTRIBUTION_STORAGE_KEY
        = (some (.json j), w2) →
      j.truthy = true → captureAttributionData stores env2 = (w2, false)) := by
  have hga : getAttributionData stores env.world
      = (none, (managerRemove stores w1 ATTRIBUTION_STORAGE_KEY).2) := by
    simp [getAttributionData, hget]
  have hany : (captureUtmParams env.search).hasAnyUtm = true := by
    simp [AttributionData.hasAnyUtm, (captureUtmParams_fields env.search).1, hu]
  refine ⟨hga, ?_, fun env2 j w2 h2 ht2 =>
    capture_of_present stores env2 j w2 h2 ht2⟩
  simp [captureAttributionData, hga, captureScan, hany]

/-- Witness for C9: a corrupt entry in localStorage is removed and a
new record is captured from `utm_source=g`; a parseable stored record
(same chain) blocks capture. -/
theorem c9_witness :
    getAttributionData defaultStores corruptAttrWorld
      = (none,
         (managerRemove defaultStores corruptAttrWorld
           ATTRIBUTION_STORAGE_KEY).2) ∧
    captureAttributionData defaultStores
      { world := corruptAttrWorld, search := [("utm_source", "g")],
        pathname := "/p", referrer := "r" }
      = ((setAttributionToStorage defaultStores
          (managerRemove defaultStores corruptAttrWorld
            ATTRIBUTION_STORAGE_KEY).2
          { captureUtmParams [("utm_source", "g")] with
            landing_page := some "/p", referrer := some "r" }).1, true) ∧
    captureAttributionData defaultStores { world := attrWorld }
      = (attrWorld, false) := by
  have h := c9_corrupt_entry_self_heals defaultStores
    { world := corruptAttrWorld, search := [("utm_source", "g")],
      pathname := "/p", referrer := "r" }
    "not-json" corruptAttrWorld "g" rfl rfl
  exact ⟨h.1, h.2.1, h.2.2 { world := attrWorld } attrRecordJson attrWorld
    rfl rfl⟩

/-! ## Click-resolver fold lemmas -/

theorem trackScanFrom_cons (k : String) (kv : String × String)
    (rest : List (String × String)) (r : Option String) :
    trackScanFrom (kv :: rest) k r
      = trackScanFrom rest k
          (if jsStartsWith kv.1 "track" && (cleanTrackKey kv.1 == k) then
            some kv.2
          else r) := rfl

theorem trackScanFrom_seed (k : String) :
    ∀ (ds : List (String × String)) (r : Option String),
    trackScanFrom ds k r
      = match trackScanFrom ds k none with
        | some v => some v
        | none => r
  | [], r => rfl
  | kv :: rest, r => by
    rw [trackScanFrom_cons, trackScanFrom_cons]
    by_cases hfire : (jsStartsWith kv.1 "track" && (cleanTrackKey kv.1 == k))
        = true
    · rw [if_pos hfire, if_pos hfire, trackScanFrom_seed k rest (some kv.2)]
      rcases htr : trackScanFrom rest k none with _ | v <;> simp [htr]
    · rw [if_neg hfire, if_neg hfire]
      exact trackScanFrom_seed k rest r

theorem lookup_trackStep (k : String) (acc : List (String × String))
    (kv : String × String) :
    lookupKV
      (if jsStartsWith kv.1 "track" then
        insertKV acc (cleanTrackKey kv.1) kv.2
      else acc) k
      = if jsStartsWith kv.1 "track" && (cleanTrackKey kv.1 == k) then
          some kv.2
        else lookupKV acc k := by
  by_cases hg : jsStartsWith kv.1 "track"
  · by_cases hf : cleanTrackKey kv.1 = k
    · simp [hg, hf, lookupKV_insertKV]
    · simp [hg, hf, lookupKV_insertKV]
  · simp [hg]

theorem lookup_trackFold (k : String) :
    ∀ (ds acc : List (String × String)),
    lookupKV (ds.foldl
      (fun acc2 kv =>
        if jsStartsWith kv.1 "track" then
          insertKV acc2 (cleanTrackKey kv.1) kv.2
        else acc2) acc) k
      = trackScanFrom ds k (lookupKV acc k)
  | [], _ => rfl
  | kv :: rest, acc => by
    rw [List.foldl_cons, lookup_trackFold k rest, lookup_trackStep,
      trackScanFrom_cons]

theorem lookup_collectElemData (e : DomElem) (k : String)
    (acc : List (String × String)) :
    lookupKV (collectElemData acc e) k
      = match elemTrackValue e k with
        | some v => some v
        | none => lookupKV acc k := by
  unfold collectElemData elemTrackValue
  rw [lookup_trackFold]
  exact trackScanFrom_seed k e.dataset (lookupKV acc k)

theorem chainScanFrom_cons (k : String) (e : DomElem) (rest : List DomElem)
    (r : Option String) :
    chainScanFrom (e :: rest) k r
      = chainScanFrom rest k
          (match elemTrackValue e k with
           | some v => some v
           | none => r) := rfl

theorem lookup_chainFold (k : String) :
    ∀ (els : List DomElem) (acc : List (String × String)),
    lookupKV (els.foldl collectElemData acc) k
      = chainScanFrom els k (lookupKV acc k)
  | [], _ => rfl
  | e :: rest, acc => by
    rw [List.foldl_cons, lookup_chainFold k rest, lookup_collectElemData,
      chainScanFrom_cons]

theorem chainScanFrom_append (k : String) (l1 l2 : List DomElem)
    (r : Option String) :
    chainScanFrom (l1 ++ l2) k r = chainScanFrom l2 k (chainScanFrom l1 k r) := by
  simp [chainScanFrom, List.foldl_append]

theorem chainScanFrom_nofire (k : String) :
    ∀ (els : List DomElem) (r : Option String),
    (∀ e ∈ els, elemTrackValue e k = none) → chainScanFrom els k r = r
  | [], _, _ => rfl
  | e :: rest, r, h => by
    rw [chainScanFrom_cons, h e (by simp)]
    exact chainScanFrom_nofire k rest r (fun e2 he2 => h e2 (by simp [he2]))

theorem collect_lookup_of_path (chain : List DomElem) (t : Nat)
    (below above : List DomElem) (d : DomElem) (k : String) (vd : String)
    (htop : topTrackIdx chain = some t)
    (hpath : chain.take (t + 1) = below ++ d :: above)
    (hbelow : ∀ e ∈ below, elemTrackValue e k = none)
    (hd : elemTrackValue d k = some vd) :
    lookupKV (collectTrackingData chain) k = some vd := by
  unfold collectTrackingData
  rw [htop]
  show lookupKV
    (List.foldl collectElemData [] (List.take (t + 1) chain).reverse) k
    = some vd
  rw [hpath, List.reverse_append, List.reverse_cons, lookup_chainFold,
    chainScanFrom_append, chainScanFrom_append, chainScanFrom_cons, hd]
  exact chainScanFrom_nofire k below.reverse (some vd)
    (fun e he => hbelow e (List.mem_reverse.mp he))

theorem propScanFrom_cons (q : String) (kv : String × String)
    (rest : List (String × String)) (r : Option String) :
    propScanFrom (kv :: rest) q r
      = propScanFrom rest q
          (if jsStartsWith kv.1 "prop" && (stripPropKey kv.1 == q) then
            some kv.2
          else r) := rfl

theorem propScanFrom_seed (q : String) :
    ∀ (td : List (String × String)) (r : Option String),
    propScanFrom td q r
      = match propScanFrom td q none with
        | some v => some v
        | none => r
  | [], r => rfl
  | kv :: rest, r => by
    rw [propScanFrom_cons, propScanFrom_cons]
    by_cases hfire : (jsStartsWith kv.1 "prop" && (stripPropKey kv.1 == q))
        = true
    · rw [if_pos hfire, if_pos hfire, propScanFrom_seed q rest (some kv.2)]
      rcases htr : propScanFrom rest q none with _ | v <;> simp [htr]
    · rw [if_neg hfire, if_neg hfire]
      exact propScanFrom_seed q rest r

theorem lookup_propStep (q : String) (props : List (String × String))
    (kv : String × String) :
    lookupKV
      (if jsStartsWith kv.1 "prop" then insertKV props (stripPropKey kv.1) kv.2
      else props) q
      = if jsStartsWith kv.1 "prop" && (stripPropKey kv.1 == q) then some kv.2
        else lookupKV props q := by
  by_cases hg : jsStartsWith kv.1 "prop"
  · by_cases hf : stripPropKey kv.1 = q
    · simp [hg, hf, lookupKV_insertKV]
    · simp [hg, hf, lookupKV_insertKV]
  · simp [hg]

theorem lookup_propFold (q : String) :
    ∀ (td props : List (String × String)),
    lookupKV (td.foldl
      (fun acc kv =>
        if jsStartsWith kv.1 "prop" then insertKV acc (stripPropKey kv.1) kv.2
        else acc) props) q
      = propScanFrom td q (lookupKV props q)
  | [], _ => rfl
  | kv :: rest, props => by
    rw [List.foldl_cons, lookup_propFold q rest, lookup_propStep,
      propScanFrom_cons]

theorem lookup_applyCustomProps (td props : List (String × String))
    (q : String) :
    lookupKV (applyCustomProps td props) q
      = match propScanFrom td q none with
        | some v => some v
        | none => lookupKV props q := by
  unfold applyCustomProps
  rw [lookup_propFold]
  exact propScanFrom_seed q td (lookupKV props q)

/-! ## Key-uniqueness of the tracking accumulator -/

theorem lookupKV_none_iff {α : Type} (l : List (String × α)) (q : String) :
    lookupKV l q = none ↔ q ∉ l.map Prod.fst := by
  induction l with
  | nil => simp [lookupKV]
  | cons kv rest ih =>
    obtain ⟨k, v⟩ := kv
    by_cases hk : k = q
    · subst hk
      simp [lookupKV]
    · simp only [lookupKV, if_neg hk, List.map_cons, List.mem_cons, ih]
      constructor
      · intro h
        rintro (h1 | h2)
        · exact hk h1.symm
        · exact h h2
      · intro h
        exact fun h2 => h (Or.inr h2)

theorem insertKV_keys {α : Type} (l : List (String × α)) (key : String)
    (v : α) :
    (insertKV l key v).map Prod.fst
      = if (lookupKV l key).isSome then l.map Prod.fst
        else l.map Prod.fst ++ [key] := by
  induction l with
  | nil => simp [insertKV, lookupKV]
  | cons kv rest ih =>
    obtain ⟨k, v2⟩ := kv
    by_cases hk : k = key
    · subst hk
      simp [insertKV, lookupKV]
    · simp only [insertKV, if_neg hk, lookupKV, List.map_cons, ih]
      split_ifs <;> simp

theorem insertKV_nodupKeys {α : Type} (l : List (String × α)) (key : String)
    (v : α) (h : (l.map Prod.fst).Nodup) :
    ((insertKV l key v).map Prod.fst).Nodup := by
  rw [insertKV_keys]
  split_ifs with hs
  · exact h
  · have hnotin : key ∉ l.map Prod.fst := by
      rw [← lookupKV_none_iff]
      rcases hl : lookupKV l key with _ | x
      · rfl
      · rw [hl] at hs
        simp at hs
    simp [List.nodup_append, h, hnotin]

theorem trackFold_nodupKeys :
    ∀ (ds : List (String × String)) (acc : List (String × String)),
    (acc.map Prod.fst).Nodup →
    ((ds.foldl
      (fun acc2 kv =>
        if jsStartsWith kv.1 "track" then
          insertKV acc2 (cleanTrackKey kv.1) kv.2
        else acc2) acc).map Prod.fst).Nodup
  | [], _, h => h
  | kv :: rest, acc, h => by
    rw [List.foldl_cons]
    apply trackFold_nodupKeys rest
    by_cases hg : jsStartsWith kv.1 "track" = true
    · rw [if_pos hg]
      exact insertKV_nodupKeys acc (cleanTrackKey kv.1) kv.2 h
    · rw [if_neg hg]
      exact h

theorem collectElemData_nodupKeys (acc : List (String × String)) (e : DomElem)
    (h : (acc.map Prod.fst).Nodup) :
    ((collectElemData acc e).map Prod.fst).Nodup := by
  unfold collectElemData
  exact trackFold_nodupKeys e.dataset acc h

theorem chainFold_nodupKeys :
    ∀ (els : List DomElem) (acc : List (String × String)),
    (acc.map Prod.fst).Nodup →
    ((els.foldl collectElemData acc).map Prod.fst).Nodup
  | [], _, h => h
  | e :: rest, acc, h => by
    rw [List.foldl_cons]
    exact chainFold_nodupKeys rest _ (collectElemData_nodupKeys acc e h)

theorem collect_nodupKeys (chain : List DomElem) :
    ((collectTrackingData chain).map Prod.fst).Nodup := by
  unfold collectTrackingData
  rcases h : topTrackIdx chain with _ | t <;> simp only [h]
  · simp
  · exact chainFold_nodupKeys _ [] (by simp)

theorem propScanFrom_nofire (q : String) :
    ∀ (td : List (String × String)) (r : Option String),
    (∀ kv ∈ td,
      (jsStartsWith kv.1 "prop" && (stripPropKey kv.1 == q)) = false) →
    propScanFrom td q r = r
  | [], _, _ => rfl
  | kv :: rest, r, h => by
    rw [propScanFrom_cons, h kv (by simp)]
    simp only [Bool.false_eq_true, if_false]
    exact propScanFrom_nofire q rest r (fun kv2 hk2 => h kv2 (by simp [hk2]))

theorem propScan_unique (k : String) (vd : String) :
    ∀ (td : List (String × String)),
    (td.map Prod.fst).Nodup →
    lookupKV td k = some vd →
    jsStartsWith k "prop" = true →
    (∀ kv ∈ td, jsStartsWith kv.1 "prop" = true →
      stripPropKey kv.1 = stripPropKey k → kv.1 = k) →
    propScanFrom td (stripPropKey k) none = some vd
  | [], _, hlk, _, _ => by simp [lookupKV] at hlk
  | (k1, v1) :: rest, hnd, hlk, hkp, hcol => by
    by_cases hk1 : k1 = k
    · subst hk1
      simp only [lookupKV, eq_self_iff_true, if_true,
        Option.some.injEq] at hlk
      subst hlk
      rw [propScanFrom_cons]
      rw [if_pos (by simp [hkp])]
      apply propScanFrom_nofire
      intro kv hkv
      cases hcond : (jsStartsWith kv.1 "prop" && (stripPropKey kv.1
          == stripPropKey k1)) with
      | false => rfl
      | true =>
        simp only [Bool.and_eq_true, beq_iff_eq] at hcond
        have hk := hcol kv (by simp [hkv]) hcond.1 hcond.2
        have hnotin : k1 ∉ rest.map Prod.fst := (List.nodup_cons.mp hnd).1
        exact absurd (hk ▸ List.mem_map_of_mem Prod.fst hkv) hnotin
    · have hlk2 : lookupKV rest k = some vd := by
        simpa [lookupKV, hk1] using hlk
      rw [propScanFrom_cons]
      have hnofire : (jsStartsWith k1 "prop" && (stripPropKey k1
          == stripPropKey k)) = false := by
        cases hcond : (jsStartsWith k1 "prop" && (stripPropKey k1
            == stripPropKey k)) with
        | false => rfl
        | true =>
          simp only [Bool.and_eq_true, beq_iff_eq] at hcond
          exact absurd (hcol (k1, v1) (by simp) hcond.1 hcond.2) hk1
      rw [hnofire]
      simp only [Bool.false_eq_true, if_false]
      exact propScan_unique k vd rest (List.nodup_cons.mp hnd).2 hlk2 hkp
        (fun kv hkv hp hsq => hcol kv (by simp [hkv]) hp hsq)

/-- C4: tracking attributes are folded from the topmost marked ancestor
down to the clicked element in root-to-leaf order, and for a key
carried by both an ancestor and a descendant (with nothing nearer the
click carrying it), the descendant's value is the one in the resulting
accumulator — so a descendant custom property (a `prop`-prefixed key,
assuming no distinct key collapses to the same stripped name) overrides
an identically named ancestor custom property in the emitted event's
properties. -/
theorem c4_descendant_overrides_ancestor (chain : List DomElem) (t : Nat)
    (below above : List DomElem) (d a : DomElem) (k : String)
    (vd va : String)
    (htop : topTrackIdx chain = some t)
    (hpath : chain.take (t + 1) = below ++ d :: above)
    (hbelow : ∀ e ∈ below, elemTrackValue e k = none)
    (hd : elemTrackValue d k = some vd)
    (ha : a ∈ above) (hak : elemTrackValue a k = some va)
    (hcol : ∀ kv ∈ collectTrackingData chain,
      jsStartsWith kv.1 "prop" = true →
      stripPropKey kv.1 = stripPropKey k → kv.1 = k) :
    lookupKV (collectTrackingData chain) k = some vd ∧
    (jsStartsWith k "prop" = true → ∀ props,
      lookupKV (applyCustomProps (collectTrackingData chain) props)
        (stripPropKey k) = some vd) := by
  have h1 := collect_lookup_of_path chain t below above d k vd htop hpath
    hbelow hd
  refine ⟨h1, fun hkp props => ?_⟩
  rw [lookup_applyCustomProps,
    propScan_unique k vd (collectTrackingData chain) (collect_nodupKeys chain)
      h1 hkp hcol]

/-- Witness for C4: marked ancestor with `category=nav`, descendant
anchor with `category=cta`: the accumulator holds `cta` and the emitted
`category` property is `cta`. -/
theorem c4_witness :
    lookupKV (collectTrackingData [ctaDescendant, navAncestor])
      "propcategory" = some "cta" ∧
    lookupKV (applyCustomProps (collectTrackingData [ctaDescendant, navAncestor])
      [("element_id", "x")]) "category" = some "cta" := by
  have h := c4_descendant_overrides_ancestor [ctaDescendant, navAncestor] 1
    [] [navAncestor] ctaDescendant navAncestor "propcategory" "cta" "nav"
    rfl rfl (by simp) rfl (by simp) rfl (by decide)
  exact ⟨h.1, h.2 rfl [("element_id", "x")]⟩

/-- C5: link classification without an explicit override follows the
URL — `mailto:` yields email with `email_address` from the URL path and
`email_subject`/`email_body` from the subject/body query parameters
(null if absent or empty); a hostname matching the social-platform list
yields social; otherwise a hostname matching the media-platform list
yields media with `platform` derived from the hostname; anything else
yields web with `is_external` true exactly when the link hostname
differs from the page hostname. -/
theorem c5_link_classification (page : String) (link : Anchor) :
    (link.url.protocol = "mailto:" →
      inferLinkType link.url = "email" ∧
      ∃ p : EmailClickProperties,
        createGenerator page (inferLinkType link.url) link = .emailProps p ∧
        p.link_type = "email" ∧
        p.email_address = link.url.pathname ∧
        p.email_subject = orNull (lookupKV link.url.searchParams "subject") ∧
        p.email_body = orNull (lookupKV link.url.searchParams "body")) ∧
    (link.url.protocol ≠ "mailto:" →
      socialPlatforms.any (fun q => jsIncludes link.url.hostname q) = true →
      inferLinkType link.url = "social" ∧
      ∃ p : SocialClickProperties,
        createGenerator page (inferLinkType link.url) link = .socialProps p ∧
        p.link_type = "social" ∧
        p.platform = getPlatformFromHostname link.url.hostname) ∧
    (link.url.protocol ≠ "mailto:" →
      socialPlatforms.any (fun q => jsIncludes link.url.hostname q) = false →
      mediaPlatforms.any (fun q => jsIncludes link.url.hostname q) = true →
      inferLinkType link.url = "media" ∧
      ∃ p : SocialClickProperties,
        createGenerator page (inferLinkType link.url) link = .socialProps p ∧
        p.link_type = "media" ∧
        p.platform = getPlatformFromHostname link.url.hostname) ∧
    (link.url.protocol ≠ "mailto:" →
      socialPlatforms.any (fun q => jsIncludes link.url.hostname q) = false →
      mediaPlatforms.any (fun q => jsIncludes link.url.hostname q) = false →
      inferLinkType link.url = "web" ∧
      ∃ p : LinkClickProperties,
        createGenerator page (inferLinkType link.url) link = .webProps p ∧
        p.link_type = "web" ∧
        p.is_external = (link.url.hostname != page)) := by
  refine ⟨fun hm => ?_, fun hm hsoc => ?_, fun hm hsoc hmed => ?_,
    fun hm hsoc hmed => ?_⟩
  · have ht : inferLinkType link.url = "email" := by
      simp [inferLinkType, hm]
    rw [ht]
    exact ⟨rfl, ⟨_, rfl, rfl, rfl, rfl, rfl⟩⟩
  · have ht : inferLinkType link.url = "social" := by
      simp [inferLinkType, hm, hsoc]
    rw [ht]
    exact ⟨rfl, ⟨_, rfl, rfl, rfl⟩⟩
  · have ht : inferLinkType link.url = "media" := by
      simp [inferLinkType, hm, hsoc, hmed]
    rw [ht]
    exact ⟨rfl, ⟨_, rfl, rfl, rfl⟩⟩
  · have ht : inferLinkType link.url = "web" := by
      simp [inferLinkType, hm, hsoc, hmed]
    rw [ht]
    exact ⟨rfl, ⟨_, rfl, rfl, rfl⟩⟩

/-- Witness for C5: the spec's two concrete examples — the mailto link
yields email with address/subject/body, the YouTube link yields media
with platform `youtube`. -/
theorem c5_witness :
    (inferLinkType mailtoLink.url = "email" ∧
      ∃ p : EmailClickProperties,
        createGenerator "example.com" (inferLinkType mailtoLink.url)
          mailtoLink = .emailProps p ∧
        p.link_type = "email" ∧
        p.email_address = "a@b.com" ∧
        p.email_subject = some "hi" ∧
        p.email_body = some "yo") ∧
    (inferLinkType ytLink.url = "media" ∧
      ∃ p : SocialClickProperties,
        createGenerator "example.com" (inferLinkType ytLink.url) ytLink
          = .socialProps p ∧
        p.link_type = "media" ∧
        p.platform = "youtube") := by
  constructor
  · exact (c5_link_classification "example.com" mailtoLink).1 rfl
  · exact (c5_link_classification "example.com" ytLink).2.2.1 (by decide)
      (by decide) (by decide)

end WebAnalytics
